import Mathlib

/-!
Verification of `pkg/ipcache/types/types.go` (ciliumgo): the `ResourceID`
attribution encoding and the metadata value types (`EncryptKey`,
`RequestedIdentity`, `EndpointFlags`).

Go strings are embedded as Lean `String`, with character-level operations on
`String.data` (the separator `/` is a single ASCII byte, so byte-level and
character-level splitting agree). Go `uint8` is embedded as `Fin 256`,
`bool` as `Bool`.
-/

/-- `type ResourceID string`: identifies a unique copy of a resource that
provides a source for information tied to an IP address in the IPCache. -/
abbrev ResourceID := String

/-- `type ResourceKind string`: determines the source of the `ResourceID`. -/
abbrev ResourceKind := String

def ResourceKindCCNP : ResourceKind := "ccnp"

def ResourceKindCIDRGroup : ResourceKind := "cidrgroup"

def ResourceKindCNP : ResourceKind := "cnp"

def ResourceKindDaemon : ResourceKind := "daemon"

def ResourceKindEndpoint : ResourceKind := "ep"

def ResourceKindFile : ResourceKind := "file"

def ResourceKindNetpol : ResourceKind := "netpol"

def ResourceKindNode : ResourceKind := "node"

/-- `NewResourceID(kind, namespace, name)`: the Go code builds the string by
writing, in order, `kind`, `'/'`, `namespace`, `'/'`, `name` into a
`strings.Builder`; the result is the concatenation of those five pieces. -/
def NewResourceID (kind : ResourceKind) (ns name : String) : ResourceID :=
  String.mk (kind.data ++ '/' :: (ns.data ++ '/' :: name.data))

/-- Index of the first occurrence of `sep`: `splitFirst sep s = some (p, q)`
when `s = p ++ sep :: q` with `sep ∉ p`, and `none` when `sep ∉ s`.
This is the single step of Go `strings.genSplit` for a one-character
separator (`m := Index(s, sep); a[i] = s[:m]; s = s[m+1:]`). -/
def splitFirst (sep : Char) : List Char → Option (List Char × List Char)
  | [] => none
  | c :: cs =>
    if c = sep then some ([], cs)
    else
      match splitFirst sep cs with
      | none => none
      | some (p, q) => some (c :: p, q)

/-- Go `strings.SplitN(s, sep, n)` for a one-character, non-empty `sep` and
`n ≥ 0`: at most `n` substrings; the last substring is the unsplit
remainder; `n = 0` yields the empty slice. -/
def goSplitN (sep : Char) : Nat → List Char → List (List Char)
  | 0, _ => []
  | 1, s => [s]
  | n + 2, s =>
    match splitFirst sep s with
    | none => [s]
    | some (p, q) => p :: goSplitN sep (n + 1) q

/-- `ResourceID.Namespace()`:
`parts := strings.SplitN(string(r), "/", 3); if len(parts) < 2 { return "" };
return parts[1]`. -/
def ResourceID.Namespace (r : ResourceID) : String :=
  match goSplitN '/' 3 r.data with
  | _ :: p1 :: _ => String.mk p1
  | _ => ""

/-- `type EncryptKey uint8`: the identity of the encryption key. -/
abbrev EncryptKey := Fin 256

/-- `const EncryptKeyEmpty = EncryptKey(0)`. -/
def EncryptKeyEmpty : EncryptKey := 0

/-- `func (e EncryptKey) IsValid() bool { return e != EncryptKeyEmpty }`. -/
def EncryptKey.IsValid (e : EncryptKey) : Bool :=
  decide (e ≠ EncryptKeyEmpty)

/-- `func (e EncryptKey) Uint8() uint8 { return uint8(e) }`. -/
def EncryptKey.Uint8 (e : EncryptKey) : Fin 256 :=
  e

/-- `func (e EncryptKey) String() string { return strconv.Itoa(int(e)) }`:
`strconv.Itoa` of a non-negative integer is its decimal representation,
embedded as `Nat.repr`. -/
def EncryptKey.String (e : EncryptKey) : String :=
  Nat.repr e.val

/-- Modelled from the spec: `identity.NumericIdentity`, the identity
allocator's numeric identity type, is not part of this source fragment; the
spec describes it as a small (unsigned) integer identifier, embedded as
`Nat`. -/
abbrev NumericIdentity := Nat

/-- `type RequestedIdentity identity.NumericIdentity`: a desired numeric
identity for the prefix. -/
abbrev RequestedIdentity := NumericIdentity

/-- `func (id RequestedIdentity) IsValid() bool { return id != 0 }`. -/
def RequestedIdentity.IsValid (id : RequestedIdentity) : Bool :=
  decide (id ≠ 0)

/-- `func (id RequestedIdentity) ID() identity.NumericIdentity`. -/
def RequestedIdentity.ID (id : RequestedIdentity) : NumericIdentity :=
  id

/-- `type EndpointFlags struct { isInit bool; flagSkipTunnel bool }`. -/
structure EndpointFlags where
  isInit : Bool
  flagSkipTunnel : Bool
  deriving Repr, DecidableEq

/-- The Go zero value of `EndpointFlags` (both fields `false`). -/
def EndpointFlags.zeroValue : EndpointFlags :=
  { isInit := false, flagSkipTunnel := false }

/-- `func (e *EndpointFlags) SetSkipTunnel(skip bool)`: sets `isInit = true`
and `flagSkipTunnel = skip`; the pointer-receiver mutation is embedded as
returning the updated value. -/
def EndpointFlags.SetSkipTunnel (e : EndpointFlags) (skip : Bool) : EndpointFlags :=
  { e with isInit := true, flagSkipTunnel := skip }

/-- `func (e EndpointFlags) IsValid() bool { return e.isInit }`. -/
def EndpointFlags.IsValid (e : EndpointFlags) : Bool :=
  e.isInit

/-- `const FlagSkipTunnel uint8 = 1 << iota` (first position, so `1`). -/
def FlagSkipTunnel : Nat := 1

/-- `func (e EndpointFlags) Uint8() uint8`: starts from `0` and ors in
`FlagSkipTunnel` when `flagSkipTunnel` is set. The value stays below 256,
so `Nat` arithmetic agrees with `uint8`. -/
def EndpointFlags.Uint8 (e : EndpointFlags) : Nat :=
  if e.flagSkipTunnel then 0 ||| FlagSkipTunnel else 0

/-- Consecutive `SetSkipTunnel` calls on an `EndpointFlags` value, oldest
first: the full set of mutating operations of the type. -/
def EndpointFlags.applySetters (e : EndpointFlags) : List Bool → EndpointFlags
  | [] => e
  | skip :: rest => EndpointFlags.applySetters (e.SetSkipTunnel skip) rest

theorem string_mk_data (s : String) : String.mk s.data = s := rfl

theorem splitFirst_append (sep : Char) (p q : List Char) (hp : sep ∉ p) :
    splitFirst sep (p ++ sep :: q) = some (p, q) := by
  induction p with
  | nil => simp [splitFirst]
  | cons c cs ih =>
    have hc : ¬ c = sep := fun h => hp (h ▸ List.mem_cons_self c cs)
    have hcs : sep ∉ cs := fun h => hp (List.mem_cons_of_mem c h)
    simp [splitFirst, hc, ih hcs]

theorem splitFirst_eq_none_of_not_mem (sep : Char) (s : List Char) (h : sep ∉ s) :
    splitFirst sep s = none := by
  induction s with
  | nil => rfl
  | cons c cs ih =>
    have hc : ¬ c = sep := fun hcs => h (hcs ▸ List.mem_cons_self c cs)
    have hcs : sep ∉ cs := fun hm => h (List.mem_cons_of_mem c hm)
    simp [splitFirst, hc, ih hcs]

theorem not_mem_of_splitFirst_eq_none (sep : Char) (s : List Char)
    (h : splitFirst sep s = none) : sep ∉ s := by
  induction s with
  | nil => simp
  | cons c cs ih =>
    by_cases hc : c = sep
    · simp [splitFirst, hc] at h
    · cases hsf : splitFirst sep cs with
      | none =>
        intro hm
        rcases List.mem_cons.mp hm with h1 | h2
        · exact hc h1.symm
        · exact ih hsf h2
      | some pq => simp [splitFirst, hc, hsf] at h

theorem splitFirst_eq_some (sep : Char) (s p q : List Char)
    (h : splitFirst sep s = some (p, q)) : s = p ++ sep :: q ∧ sep ∉ p := by
  induction s generalizing p q with
  | nil => simp [splitFirst] at h
  | cons c cs ih =>
    by_cases hc : c = sep
    · rw [splitFirst, if_pos hc] at h
      simp only [Option.some.injEq, Prod.mk.injEq] at h
      obtain ⟨h1, h2⟩ := h
      subst h1
      subst h2
      simp [hc]
    · cases hsf : splitFirst sep cs with
      | none => rw [splitFirst, if_neg hc, hsf] at h; exact absurd h (by simp)
      | some pq =>
        obtain ⟨p2, q2⟩ := pq
        rw [splitFirst, if_neg hc, hsf] at h
        simp only [Option.some.injEq, Prod.mk.injEq] at h
        obtain ⟨h1, h2⟩ := h
        subst h1
        subst h2
        obtain ⟨hs2, hnp2⟩ := ih p2 q2 hsf
        refine ⟨by rw [hs2]; rfl, ?_⟩
        intro hm
        rcases List.mem_cons.mp hm with h1 | h2
        · exact hc h1.symm
        · exact hnp2 h2

theorem goSplitN_succ_succ (sep : Char) (n : Nat) (s : List Char) :
    goSplitN sep (n + 2) s =
      match splitFirst sep s with
      | none => [s]
      | some pq => pq.1 :: goSplitN sep (n + 1) pq.2 := by
  cases hsf : splitFirst sep s with
  | none => simp [goSplitN, hsf]
  | some pq => simp [goSplitN, hsf]

theorem goSplitN3_cons (p q : List Char) (hp : '/' ∉ p) :
    goSplitN '/' 3 (p ++ '/' :: q) = p :: goSplitN '/' 2 q := by
  rw [show (3 : Nat) = 1 + 2 from rfl, goSplitN_succ_succ, splitFirst_append '/' p q hp]

theorem goSplitN2_cons (p q : List Char) (hp : '/' ∉ p) :
    goSplitN '/' 2 (p ++ '/' :: q) = [p, q] := by
  rw [show (2 : Nat) = 0 + 2 from rfl, goSplitN_succ_succ, splitFirst_append '/' p q hp]
  rfl

theorem goSplitN3_no_sep (s : List Char) (h : '/' ∉ s) :
    goSplitN '/' 3 s = [s] := by
  rw [show (3 : Nat) = 1 + 2 from rfl, goSplitN_succ_succ,
    splitFirst_eq_none_of_not_mem '/' s h]

theorem goSplitN2_no_sep (s : List Char) (h : '/' ∉ s) :
    goSplitN '/' 2 s = [s] := by
  rw [show (2 : Nat) = 0 + 2 from rfl, goSplitN_succ_succ,
    splitFirst_eq_none_of_not_mem '/' s h]

theorem newResourceID_data (kind ns name : String) :
    (NewResourceID kind ns name).data = kind.data ++ '/' :: (ns.data ++ '/' :: name.data) := rfl

theorem goSplitN3_newResourceID (kind ns name : String)
    (hk : '/' ∉ kind.data) (hns : '/' ∉ ns.data) :
    goSplitN '/' 3 (NewResourceID kind ns name).data = [kind.data, ns.data, name.data] := by
  rw [newResourceID_data, goSplitN3_cons kind.data _ hk, goSplitN2_cons ns.data _ hns]

theorem namespace_of_goSplitN3 (r : ResourceID) (a b : List Char) (t : List (List Char))
    (h : goSplitN '/' 3 r.data = a :: b :: t) : ResourceID.Namespace r = String.mk b := by
  unfold ResourceID.Namespace
  rw [h]

theorem namespace_newResourceID (kind ns name : String)
    (hk : '/' ∉ kind.data) (hns : '/' ∉ ns.data) :
    ResourceID.Namespace (NewResourceID kind ns name) = ns := by
  rw [namespace_of_goSplitN3 _ kind.data ns.data [name.data]
    (goSplitN3_newResourceID kind ns name hk hns), string_mk_data]

theorem namespace_no_sep (s : ResourceID) (h : '/' ∉ s.data) :
    ResourceID.Namespace s = "" := by
  unfold ResourceID.Namespace
  rw [goSplitN3_no_sep s.data h]

theorem goSplitN2_length_pos (s : List Char) : 0 < (goSplitN '/' 2 s).length := by
  rw [show (2 : Nat) = 0 + 2 from rfl, goSplitN_succ_succ]
  cases splitFirst '/' s with
  | none => simp
  | some pq => simp

theorem goSplitN3_length_le (s : List Char) : (goSplitN '/' 3 s).length ≤ 3 := by
  cases hsf : splitFirst '/' s with
  | none =>
    rw [goSplitN3_no_sep s (not_mem_of_splitFirst_eq_none '/' s hsf)]
    simp
  | some pq =>
    obtain ⟨hs, hnp⟩ := splitFirst_eq_some '/' s pq.1 pq.2 (by simp [hsf])
    rw [hs, goSplitN3_cons pq.1 pq.2 hnp]
    rw [show (2 : Nat) = 0 + 2 from rfl, goSplitN_succ_succ]
    cases splitFirst '/' pq.2 with
    | none => simp
    | some pq2 => simp [goSplitN]

theorem goSplitN3_length_lt_two_iff (s : List Char) :
    (goSplitN '/' 3 s).length < 2 ↔ '/' ∉ s := by
  constructor
  · intro hlen
    cases hsf : splitFirst '/' s with
    | none => exact not_mem_of_splitFirst_eq_none '/' s hsf
    | some pq =>
      exfalso
      obtain ⟨hs, hnp⟩ := splitFirst_eq_some '/' s pq.1 pq.2 (by simp [hsf])
      rw [hs, goSplitN3_cons pq.1 pq.2 hnp] at hlen
      have := goSplitN2_length_pos pq.2
      simp [List.length_cons] at hlen
      omega
  · intro h
    rw [goSplitN3_no_sep s h]
    simp

/-- C1 counterexample: the claim quantifies over every `kind` while restricting
only `namespace` and `name` to be slash-free; a `kind` containing `/` shifts
the three-way split, so `Namespace()` returns a fragment of the kind instead
of the namespace, and the `("", "")` instance is not `""` either. -/
theorem resourceID_namespace_claim_cex :
    ('/' ∉ "ns".data ∧ '/' ∉ "x".data ∧
      ResourceID.Namespace (NewResourceID "a/b" "ns" "x") ≠ "ns") ∧
    ResourceID.Namespace (NewResourceID "a/b" "" "") ≠ "" := by
  decide

/-- C1 (amended): when `kind`, `namespace` and `name` all contain no `/`
characters, `NewResourceID(kind, namespace, name).Namespace()` returns exactly
`namespace`; in particular `NewResourceID(kind, "", "").Namespace()` is `""`.
(All defined `ResourceKind` constants are slash-free.) -/
theorem resourceID_namespace_roundtrip (kind : ResourceKind) (ns name : String)
    (hkind : '/' ∉ kind.data) (hns : '/' ∉ ns.data) (_hname : '/' ∉ name.data) :
    ResourceID.Namespace (NewResourceID kind ns name) = ns ∧
    ResourceID.Namespace (NewResourceID kind "" "") = "" :=
  ⟨namespace_newResourceID kind ns name hkind hns,
   namespace_newResourceID kind "" "" hkind (by simp)⟩

theorem resourceID_namespace_roundtrip_witness :
    ('/' ∉ "cnp".data ∧ '/' ∉ "kube-system".data ∧ '/' ∉ "allow-dns".data) ∧
    ResourceID.Namespace (NewResourceID "cnp" "kube-system" "allow-dns") = "kube-system" :=
  ⟨⟨by decide, by decide, by decide⟩,
   (resourceID_namespace_roundtrip "cnp" "kube-system" "allow-dns"
      (by decide) (by decide) (by decide)).1⟩

/-- C2: `NewResourceID(kind, namespace, name)` produces exactly
`kind ++ "/" ++ namespace ++ "/" ++ name`, with both delimiters always
present; in particular the two examples from the spec hold literally. -/
theorem newResourceID_encoding (kind : ResourceKind) (ns name : String) :
    NewResourceID kind ns name = kind ++ "/" ++ ns ++ "/" ++ name ∧
    NewResourceID ResourceKindCNP "kube-system" "allow-dns" = "cnp/kube-system/allow-dns" ∧
    NewResourceID ResourceKindDaemon "" "startup" = "daemon//startup" := by
  refine ⟨?_, by decide, by decide⟩
  apply String.ext
  have hslash : ("/" : String).data = ['/'] := rfl
  show kind.data ++ '/' :: (ns.data ++ '/' :: name.data) =
    (kind ++ "/" ++ ns ++ "/" ++ name).data
  simp [String.data_append, hslash]

/-- C3: bit 0 of `EndpointFlags.Uint8()` is set exactly when the skip-tunnel
flag is set, bits 1 through 7 are always zero, and the value is always 0
or 1. -/
theorem endpointFlags_uint8_layout (e : EndpointFlags) :
    (Nat.testBit (EndpointFlags.Uint8 e) 0 = e.flagSkipTunnel) ∧
    (∀ i : Fin 7, Nat.testBit (EndpointFlags.Uint8 e) (i.val + 1) = false) ∧
    (EndpointFlags.Uint8 e = 0 ∨ EndpointFlags.Uint8 e = 1) := by
  obtain ⟨init, skip⟩ := e
  cases init <;> cases skip <;> decide

/-- C4: `Namespace()` is total: it is the middle element of the bounded
three-way split (with `[]` default when absent), returns `""` when the string
contains no `/`, and a `name` component containing `/` does not corrupt
namespace extraction. -/
theorem resourceID_namespace_total (s : ResourceID) (kind ns name : String)
    (hkind : '/' ∉ kind.data) (hns : '/' ∉ ns.data) :
    (goSplitN '/' 3 s.data).length ≤ 3 ∧
    ResourceID.Namespace s = String.mk ((goSplitN '/' 3 s.data).getD 1 []) ∧
    ('/' ∉ s.data → ResourceID.Namespace s = "") ∧
    ResourceID.Namespace (NewResourceID kind ns name) = ns := by
  refine ⟨goSplitN3_length_le s.data, ?_, fun h => namespace_no_sep s h,
    namespace_newResourceID kind ns name hkind hns⟩
  unfold ResourceID.Namespace
  cases hl : goSplitN '/' 3 s.data with
  | nil => rfl
  | cons a t =>
    cases t with
    | nil => rfl
    | cons b t2 => rfl

theorem resourceID_namespace_total_witness :
    ('/' ∉ "cnp".data ∧ '/' ∉ "kube-system".data) ∧
    ResourceID.Namespace (NewResourceID "cnp" "kube-system" "allow/dns") = "kube-system" :=
  ⟨⟨by decide, by decide⟩,
   (resourceID_namespace_total "x" "cnp" "kube-system" "allow/dns"
      (by decide) (by decide)).2.2.2⟩

/-- C5: `SetSkipTunnel` always succeeds and always marks the value
initialized: after `SetSkipTunnel(true)` the value is valid with `Uint8 = 1`;
after `SetSkipTunnel(false)` it is valid with `Uint8 = 0`. -/
theorem endpointFlags_setSkipTunnel_spec (e : EndpointFlags) :
    EndpointFlags.IsValid (EndpointFlags.SetSkipTunnel e true) = true ∧
    EndpointFlags.Uint8 (EndpointFlags.SetSkipTunnel e true) = 1 ∧
    EndpointFlags.IsValid (EndpointFlags.SetSkipTunnel e false) = true ∧
    EndpointFlags.Uint8 (EndpointFlags.SetSkipTunnel e false) = 0 := by
  obtain ⟨init, skip⟩ := e
  cases init <;> cases skip <;> decide

/-- C6: the freshly constructed (Go zero-value) `EndpointFlags` has
`IsValid() = false` and `Uint8() = 0`. -/
theorem endpointFlags_zero_spec :
    EndpointFlags.IsValid EndpointFlags.zeroValue = false ∧
    EndpointFlags.Uint8 EndpointFlags.zeroValue = 0 := by
  decide

/-- C7: the initialization state machine is one-way: once an `EndpointFlags`
value is valid, no further sequence of setter calls (the type's only
mutations) ever makes it invalid again. -/
theorem endpointFlags_initialized_terminal (e : EndpointFlags) (ops : List Bool)
    (h : EndpointFlags.IsValid e = true) :
    EndpointFlags.IsValid (EndpointFlags.applySetters e ops) = true := by
  revert h
  induction ops generalizing e with
  | nil => intro h; exact h
  | cons skip rest ih => intro _; exact ih (EndpointFlags.SetSkipTunnel e skip) rfl

theorem endpointFlags_initialized_terminal_witness :
    EndpointFlags.IsValid
      (EndpointFlags.applySetters
        (EndpointFlags.SetSkipTunnel EndpointFlags.zeroValue false) [true, false]) = true :=
  endpointFlags_initialized_terminal
    (EndpointFlags.SetSkipTunnel EndpointFlags.zeroValue false) [true, false] rfl

/-- C8: `EncryptKeyEmpty.IsValid() = false`; every non-zero key is valid; and
`String()` is the decimal representation of the key value. -/
theorem encryptKey_spec (k : EncryptKey) (hk : k ≠ EncryptKeyEmpty) :
    EncryptKey.IsValid EncryptKeyEmpty = false ∧
    EncryptKey.IsValid k = true ∧
    (∀ j : EncryptKey, EncryptKey.String j = Nat.repr j.val) :=
  ⟨rfl, decide_eq_true hk, fun _ => rfl⟩

theorem encryptKey_spec_witness :
    (7 : EncryptKey) ≠ EncryptKeyEmpty ∧ EncryptKey.IsValid 7 = true :=
  ⟨by decide, (encryptKey_spec 7 (by decide)).2.1⟩

/-- C9: `RequestedIdentity(0).IsValid() = false`; every non-zero requested
identity is valid and `ID()` returns the same numeric identity value. -/
theorem requestedIdentity_spec (v : RequestedIdentity) (hv : v ≠ 0) :
    RequestedIdentity.IsValid 0 = false ∧
    RequestedIdentity.IsValid v = true ∧
    RequestedIdentity.ID v = v :=
  ⟨rfl, decide_eq_true hv, rfl⟩

theorem requestedIdentity_spec_witness :
    (42 : RequestedIdentity) ≠ 0 ∧ RequestedIdentity.IsValid 42 = true :=
  ⟨by decide, (requestedIdentity_spec 42 (by decide)).2.1⟩

/-- C10: a `ResourceID` with exactly one `/` (slash-free text on both sides)
yields the text after that slash from `Namespace()`, not `""`; the
fewer-than-two-parts fallback applies exactly to strings with no `/` at
all. -/
theorem namespace_single_slash (p q : String)
    (hp : '/' ∉ p.data) (hq : '/' ∉ q.data) :
    ResourceID.Namespace (p ++ "/" ++ q) = q ∧
    (∀ s : ResourceID, ((goSplitN '/' 3 s.data).length < 2 ↔ '/' ∉ s.data)) := by
  refine ⟨?_, fun s => goSplitN3_length_lt_two_iff s.data⟩
  have hslash : ("/" : String).data = ['/'] := rfl
  have hdata : (p ++ "/" ++ q).data = p.data ++ '/' :: q.data := by
    simp [String.data_append, hslash]
  unfold ResourceID.Namespace
  rw [hdata, goSplitN3_cons p.data q.data hp, goSplitN2_no_sep q.data hq]

theorem namespace_single_slash_witness :
    ('/' ∉ "kind".data ∧ '/' ∉ "ns".data) ∧
    ResourceID.Namespace ("kind" ++ "/" ++ "ns") = "ns" :=
  ⟨⟨by decide, by decide⟩, (namespace_single_slash "kind" "ns" (by decide) (by decide)).1⟩
